import Mathlib

/-!
Verification of the dotfiles-manager core: the manifest store
(`files/manifest.py`), the reconciliation primitives (`files/linker.py`,
`files/copier.py`) and the orchestration loops (`commands/sync.py`),
shallowly embedded over an explicit filesystem model.
-/

set_option autoImplicit false

namespace Dotfiles

/-- An absolute or relative filesystem path, as its list of components
(`Path("a/b")` has components `["a", "b"]`). -/
abbrev PathC := List String

/-- Split a manifest path string into components, as `pathlib.Path` does for
plain relative paths. -/
def splitPath (s : String) : PathC := s.splitOn "/"

/-- Join path components back into the string `pathlib` would print. -/
def joinPath (p : PathC) : String := String.intercalate "/" p

/-- A parsed YAML document value, as produced by `yaml.safe_load`.
Scalars other than strings do not occur in the manifest documents modelled
here. -/
inductive Yaml where
  | null
  | str (s : String)
  | list (xs : List Yaml)
  | map (kvs : List (String × Yaml))
deriving Repr

/-- Prefix test on character lists. -/
def charsPre : List Char → List Char → Bool
  | [], _ => true
  | _ :: _, [] => false
  | a :: as, b :: bs => if a = b then charsPre as bs else false

/-- Substring test on character lists. -/
def charsContains (pat : List Char) : List Char → Bool
  | [] => charsPre pat []
  | c :: tl => if charsPre pat (c :: tl) then true else charsContains pat tl

/-- Python `pat in s` on strings: substring containment. -/
def strContains (s pat : String) : Bool := charsContains pat.data s.data

/-- ASCII lower-casing of a string (`str.lower()` on the paths that occur
here). -/
def lowerStr (s : String) : String := String.mk (s.data.map Char.toLower)

/-- Python `dict` lookup on an insertion-ordered association list. -/
def dictGet (d : List (String × Yaml)) (k : String) : Option Yaml :=
  match d with
  | [] => none
  | (k2, v) :: rest => if k2 = k then some v else dictGet rest k

/-- `d.get(k, dflt)`. -/
def dictGetD (d : List (String × Yaml)) (k : String) (dflt : Yaml) : Yaml :=
  (dictGet d k).getD dflt

/-- Python `d[k] = v`: update in place if the key is present, else append
(insertion order preserved). -/
def dictSet (d : List (String × Yaml)) (k : String) (v : Yaml) : List (String × Yaml) :=
  match d with
  | [] => [(k, v)]
  | (k2, v2) :: rest => if k2 = k then (k2, v) :: rest else (k2, v2) :: dictSet rest k v

/-- Python truthiness of a YAML value (`not data[key]`): empty containers,
empty strings and `None` are falsy. -/
def yamlFalsy : Yaml → Bool
  | .null => true
  | .str s => s.isEmpty
  | .list xs => xs.isEmpty
  | .map kvs => kvs.isEmpty

/-- The exceptions the modelled code can raise.  There is no configuration
error type anywhere in the source: `ConfigError` does not exist. -/
inductive PyExc where
  | yamlError
  | typeError
  | keyError
  | attributeError
  | permissionError
  | isADirectoryError
  | fileNotFoundError
deriving Repr, DecidableEq

/-- Equality of modelled results is decidable, so concrete runs can be
checked by evaluation. -/
instance exceptDecEq {e a : Type} [DecidableEq e] [DecidableEq a] : DecidableEq (Except e a) :=
  fun x y =>
  match x, y with
  | .ok u, .ok v =>
    if h : u = v then isTrue (by rw [h]) else isFalse (fun hc => h (Except.ok.inj hc))
  | .error u, .error v =>
    if h : u = v then isTrue (by rw [h]) else isFalse (fun hc => h (Except.error.inj hc))
  | .ok _, .error _ => isFalse (fun hc => Except.noConfusion hc)
  | .error _, .ok _ => isFalse (fun hc => Except.noConfusion hc)

/-- One manifest entry (`FileEntry` in `files/manifest.py`): `source` is
relative to the repo, `dest` relative to `$HOME`, `type` is `"symlink"` or
`"copy"`, `platform` restricts to one platform when present. -/
structure FileEntry where
  source : PathC
  dest : PathC
  type : String
  platform : Option String := none
deriving Repr, DecidableEq

namespace Manifest

/-- `FileEntry(Path(item["source"]), ...)` for one item of the flat
`entries` list.  A non-mapping item raises `TypeError` when subscripted; a
mapping without `source`/`dest` raises `KeyError`; a non-string path value
makes `Path(...)` raise `TypeError`.  (A non-string `type`/`platform` value
is kept as-is by the source; such values are outside this model.) -/
def parseEntryItem (y : Yaml) : Except PyExc FileEntry :=
  match y with
  | .map kvs => do
    let src ← match dictGet kvs "source" with
      | some (.str s) => Except.ok s
      | some _ => Except.error .typeError
      | none => Except.error .keyError
    let dst ← match dictGet kvs "dest" with
      | some (.str s) => Except.ok s
      | some _ => Except.error .typeError
      | none => Except.error .keyError
    let ty := match dictGet kvs "type" with
      | some (.str s) => s
      | _ => "symlink"
    let plat := match dictGet kvs "platform" with
      | some (.str s) => some s
      | _ => none
    Except.ok { source := splitPath src, dest := splitPath dst, type := ty, platform := plat }
  | _ => Except.error .typeError

/-- Iterate `data["entries"]`.  Iterating a string yields its characters
(each then raises `TypeError` on subscript), iterating a mapping yields its
keys, iterating `None` raises `TypeError`. -/
def parseEntryList (y : Yaml) : Except PyExc (List FileEntry) :=
  match y with
  | .list items => items.mapM parseEntryItem
  | .str s => if s.isEmpty then Except.ok [] else Except.error .typeError
  | .map kvs => if kvs.isEmpty then Except.ok [] else Except.error .typeError
  | .null => Except.error .typeError

/-- `.items()` on a legacy `symlinks`/`copies` mapping of source to dest.
A non-mapping value has no `.items()` (`AttributeError`); a non-string dest
makes `Path(...)` raise `TypeError`. -/
def parseStrMap (y : Yaml) : Except PyExc (List (String × String)) :=
  match y with
  | .map kvs => kvs.mapM (fun kv =>
      match kv.2 with
      | .str s => Except.ok (kv.1, s)
      | _ => Except.error .typeError)
  | _ => Except.error .attributeError

/-- Entries contributed by one legacy platform section
(`sections.get("symlinks", {})` / `sections.get("copies", {})`). -/
def parsePlatformSection (plat : String) (sections : Yaml) : Except PyExc (List FileEntry) :=
  match sections with
  | .map skvs => do
    let sl ← parseStrMap (dictGetD skvs "symlinks" (.map []))
    let cp ← parseStrMap (dictGetD skvs "copies" (.map []))
    Except.ok
      (sl.map (fun kv => ⟨splitPath kv.1, splitPath kv.2, "symlink", some plat⟩) ++
       cp.map (fun kv => ⟨splitPath kv.1, splitPath kv.2, "copy", some plat⟩))
  | _ => Except.error .attributeError

/-- The body of `Manifest.load` applied to an already-parsed document
(`data = yaml.safe_load(f) or {}`).  The flat `entries` shape is preferred;
otherwise the legacy `symlinks`/`copies`/`platform` shape is read.  A
non-mapping top-level document raises (`in` then subscript/`get` on the
wrong type); nothing converts these into a recoverable error. -/
def loadParsed (y : Yaml) : Except PyExc (List FileEntry) :=
  let data := if yamlFalsy y then Yaml.map [] else y
  match data with
  | .map kvs =>
    match dictGet kvs "entries" with
    | some e => parseEntryList e
    | none => do
      let sl ← parseStrMap (dictGetD kvs "symlinks" (.map []))
      let cp ← parseStrMap (dictGetD kvs "copies" (.map []))
      let base :=
        sl.map (fun kv => ({ source := splitPath kv.1, dest := splitPath kv.2,
                             type := "symlink" } : FileEntry)) ++
        cp.map (fun kv => ({ source := splitPath kv.1, dest := splitPath kv.2,
                             type := "copy" } : FileEntry))
      let plats ← match dictGetD kvs "platform" (.map []) with
        | .map ps => ps.mapM (fun kv => parsePlatformSection kv.1 kv.2)
        | _ => Except.error .attributeError
      Except.ok (base ++ plats.flatten)
  | .str s => if strContains s "entries"
              then Except.error .typeError else Except.error .attributeError
  | .list xs => if xs.any (fun x => match x with | .str s => s = "entries" | _ => false)
                then Except.error .typeError else Except.error .attributeError
  | .null => Except.ok []

/-- The state of the manifest document on disk as `Manifest.load` sees it:
absent, present but not parseable as YAML, or parsed to a value. -/
inductive Doc where
  | absent
  | unparseable
  | parsed (y : Yaml)

/-- `Manifest.load`: an absent file yields an empty manifest; unparseable
YAML propagates `yaml.YAMLError` (there is no handler in the source); a
parsed document goes through the shape logic. -/
def load : Doc → Except PyExc (List FileEntry)
  | .absent => .ok []
  | .unparseable => .error .yamlError
  | .parsed y => loadParsed y

/-- The per-entry loop body of `Manifest.save` building the output dict. -/
def saveEntryStep (d : List (String × Yaml)) (e : FileEntry) : List (String × Yaml) :=
  let sect := if e.type == "symlink" then "symlinks" else "copies"
  let asMap : Yaml → List (String × Yaml) := fun y =>
    match y with
    | .map m => m
    | _ => []
  match e.platform with
  | some plat =>
    let plats := asMap (dictGetD d "platform" (.map []))
    let sections := asMap (dictGetD plats plat (.map []))
    let secmap := asMap (dictGetD sections sect (.map []))
    let secmap2 := dictSet secmap (joinPath e.source) (.str (joinPath e.dest))
    let sections2 := dictSet sections sect (.map secmap2)
    let plats2 := dictSet plats plat (.map sections2)
    dictSet d "platform" (.map plats2)
  | none =>
    let secmap := asMap (dictGetD d sect (.map []))
    dictSet d sect (.map (dictSet secmap (joinPath e.source) (.str (joinPath e.dest))))

/-- `Manifest.save` before the cleanup passes: starts from
`{"symlinks": {}}` and inserts every entry into the legacy nested shape. -/
def buildSaveData (entries : List FileEntry) : List (String × Yaml) :=
  entries.foldl saveEntryStep [("symlinks", .map [])]

/-- Delete empty sections inside one platform group. -/
def cleanSections (pv : Yaml) : Yaml :=
  match pv with
  | .map secs => .map (secs.filter (fun kv => !(yamlFalsy kv.2)))
  | y => y

/-- Delete empty sections and then empty platform groups. -/
def cleanPlatform (plats : Yaml) : Yaml :=
  match plats with
  | .map ps => .map (((ps.map (fun kv => (kv.1, cleanSections kv.2)))).filter
      (fun kv => !(yamlFalsy kv.2)))
  | y => y

/-- The cleanup passes at the end of `Manifest.save`: delete empty
top-level sections, clean inside `platform`, delete `platform` if it became
empty. -/
def cleanData (d : List (String × Yaml)) : List (String × Yaml) :=
  let d1 := d.filter (fun kv => !(yamlFalsy kv.2))
  let d2 := d1.map (fun kv => if kv.1 = "platform" then (kv.1, cleanPlatform kv.2) else kv)
  d2.filter (fun kv => !(yamlFalsy kv.2))

/-- `Manifest.save`: the dict handed to `yaml.dump` (the serialized
document), as a function of the entry list. -/
def save (entries : List FileEntry) : List (String × Yaml) :=
  cleanData (buildSaveData entries)

/-- `Manifest.add`: update the first entry with the same dest in place
(all of source, type, platform replaced), else append; the manifest is
persisted in both branches. -/
def add (entries : List FileEntry) (source dest : PathC) (ty : String)
    (platform : Option String) : List FileEntry :=
  match entries with
  | [] => [{ source := source, dest := dest, type := ty, platform := platform }]
  | e :: rest =>
    if e.dest = dest then
      { source := source, dest := dest, type := ty, platform := platform } :: rest
    else
      e :: add rest source dest ty platform

/-- `Manifest.remove`: pop the first entry with the given dest and persist,
returning whether one was removed.  The second component is both the return
value and whether `save()` ran. -/
def remove (entries : List FileEntry) (dest : PathC) : List FileEntry × Bool :=
  match entries with
  | [] => ([], false)
  | e :: rest =>
    if e.dest = dest then (rest, true)
    else
      let r := remove rest dest
      (e :: r.1, r.2)

/-- `Manifest.find_by_dest`. -/
def find_by_dest (entries : List FileEntry) (dest : PathC) : Option FileEntry :=
  match entries with
  | [] => none
  | e :: rest => if e.dest = dest then some e else find_by_dest rest dest

/-- `Manifest.for_platform`: entries with no platform tag or the given one,
in manifest order. -/
def for_platform (entries : List FileEntry) (platform : String) : List FileEntry :=
  entries.filter (fun e => e.platform = none ∨ e.platform = some platform)

end Manifest

/-! ## Filesystem model

Files hold opaque byte strings; a directory's content is the set of nodes
whose path extends it; a symlink stores its (absolute) target path.  No
permission bits are modelled; instead `denied` lists paths on which a
mutating system call raises `PermissionError`, which is how unexpected
per-entry filesystem errors enter the model. -/

/-- One filesystem node. -/
inductive Node where
  | file (content : String)
  | dir
  | symlink (target : PathC)
deriving Repr, DecidableEq

/-- Filesystem state: a finite map from absolute paths to nodes, plus the
paths where mutation raises `PermissionError`. -/
structure FS where
  nodes : List (PathC × Node)
  denied : List PathC := []
deriving Repr, DecidableEq

/-- First-match lookup in the node list. -/
def fsLookup (nodes : List (PathC × Node)) (p : PathC) : Option Node :=
  match nodes with
  | [] => none
  | kv :: rest => if kv.1 = p then some kv.2 else fsLookup rest p

def FS.lookup (fs : FS) (p : PathC) : Option Node := fsLookup fs.nodes p

/-- Insert or overwrite the node at a path. -/
def setNodes (nodes : List (PathC × Node)) (p : PathC) (n : Node) : List (PathC × Node) :=
  match nodes with
  | [] => [(p, n)]
  | kv :: rest => if kv.1 = p then (p, n) :: rest else kv :: setNodes rest p n

def FS.setNode (fs : FS) (p : PathC) (n : Node) : FS :=
  { fs with nodes := setNodes fs.nodes p n }

/-- Boolean component-wise path prefix test. -/
def isPrefixOfP : PathC → PathC → Bool
  | [], _ => true
  | _ :: _, [] => false
  | a :: as, b :: bs => if a = b then isPrefixOfP as bs else false

/-- Canonicalization walk behind `Path.resolve()`: resolve components left
to right, expanding any symlink encountered; on fuel exhaustion (a symlink
loop) return the path as far as it was resolved, with the remainder
appended. -/
def realpathAux (fs : FS) : Nat → PathC → PathC → PathC
  | 0, acc, rest => acc ++ rest
  | _ + 1, acc, [] => acc
  | fuel + 1, acc, c :: rest =>
    let q := acc ++ [c]
    match fs.lookup q with
    | some (.symlink t) => realpathAux fs fuel [] (t ++ rest)
    | _ => realpathAux fs fuel q rest

/-- `Path.resolve()` with its default `strict=False`: the path is resolved
as far as possible and any non-existing remainder is appended without
checking that it exists; no exception is raised for a dangling symlink. -/
def FS.resolve (fs : FS) (p : PathC) : PathC :=
  realpathAux fs (8 * (fs.nodes.length + p.length + 1)) [] p

/-- `Path.is_symlink()`: an `lstat`-style check on the path itself. -/
def FS.isSymlink (fs : FS) (p : PathC) : Bool :=
  match fs.lookup p with
  | some (.symlink _) => true
  | _ => false

/-- `Path.exists()`: follows symlinks, so a dangling symlink does not
exist. -/
def FS.pathExists (fs : FS) (p : PathC) : Bool :=
  (fs.lookup (fs.resolve p)).isSome

/-- `Path.is_file()` (follows symlinks). -/
def FS.isFileAt (fs : FS) (p : PathC) : Bool :=
  match fs.lookup (fs.resolve p) with
  | some (.file _) => true
  | _ => false

/-- `Path.is_dir()` (follows symlinks). -/
def FS.isDirAt (fs : FS) (p : PathC) : Bool :=
  match fs.lookup (fs.resolve p) with
  | some .dir => true
  | _ => false

/-- File content seen through symlinks, when the path is a readable file. -/
def FS.readBytes (fs : FS) (p : PathC) : Option String :=
  match fs.lookup (fs.resolve p) with
  | some (.file c) => some c
  | _ => none

/-- `Path.read_bytes()`: raises on a directory or a missing file. -/
def FS.readBytesE (fs : FS) (p : PathC) : Except PyExc String :=
  match fs.lookup (fs.resolve p) with
  | some (.file c) => .ok c
  | some _ => .error .isADirectoryError
  | none => .error .fileNotFoundError

/-- The proper non-empty prefixes of a path, shortest first (the chain of
directories `mkdir(parents=True)` walks, ending at the path itself). -/
def pathPrefixes (p : PathC) : List PathC :=
  (List.range p.length).map (fun i => p.take (i + 1))

/-- Walk a chain of directories to create, skipping the ones that exist;
creating a missing directory at a denied path raises `PermissionError`. -/
def mkdirChain : FS → List PathC → Except PyExc FS
  | fs, [] => .ok fs
  | fs, q :: rest =>
    match fs.lookup q with
    | some _ => mkdirChain fs rest
    | none => if q ∈ fs.denied then .error .permissionError
              else mkdirChain (fs.setNode q .dir) rest

/-- `p.mkdir(parents=True, exist_ok=True)`: create every missing ancestor
and the path itself. -/
def FS.mkdirP (fs : FS) (p : PathC) : Except PyExc FS :=
  mkdirChain fs (pathPrefixes p)

/-- `Path.unlink()` on a file or symlink node. -/
def FS.unlink (fs : FS) (p : PathC) : Except PyExc FS :=
  if p ∈ fs.denied then .error .permissionError
  else .ok { fs with nodes := fs.nodes.filter (fun kv => decide (kv.1 ≠ p)) }

/-- `shutil.rmtree`: remove the node and its whole subtree. -/
def FS.rmtree (fs : FS) (p : PathC) : Except PyExc FS :=
  if p ∈ fs.denied then .error .permissionError
  else .ok { fs with nodes := fs.nodes.filter (fun kv => !(isPrefixOfP p kv.1)) }

/-- `Path.rmdir()`, called by `apply` only on an empty backup directory. -/
def FS.rmdir (fs : FS) (p : PathC) : Except PyExc FS := fs.unlink p

/-- `Path.symlink_to`: the callers remove any existing node first. -/
def FS.symlinkTo (fs : FS) (dest source : PathC) : Except PyExc FS :=
  if dest ∈ fs.denied then .error .permissionError
  else .ok (fs.setNode dest (.symlink source))

/-- `shutil.copy2 source dest`: read through symlinks on the source side
and write the bytes at dest (metadata is not modelled). -/
def FS.copy2 (fs : FS) (source dest : PathC) : Except PyExc FS := do
  let c ← fs.readBytesE source
  if dest ∈ fs.denied then Except.error .permissionError
  else Except.ok (fs.setNode dest (.file c))

/-- Move a path from under `source` to under `dest`. -/
def relocate (source dest : PathC) (q : PathC) : PathC :=
  dest ++ q.drop source.length

/-- `shutil.copytree source dest`: replicate the subtree rooted at
`source` under `dest` (the callers remove `dest` first; trees copied by
this code contain no inner symlinks in the modelled scenarios). -/
def FS.copytree (fs : FS) (source dest : PathC) : Except PyExc FS :=
  if dest ∈ fs.denied then .error .permissionError
  else .ok ((fs.nodes.filter (fun kv => isPrefixOfP source kv.1)).foldl
      (fun fs2 kv => fs2.setNode (relocate source dest kv.1) kv.2) fs)

/-- `Path.with_suffix(".symlink")` drops an existing suffix first; a name
whose only dot is the leading one has no suffix to drop. -/
def stripLastSuffix (c : String) : String :=
  let parts := c.splitOn "."
  match parts with
  | [] => c
  | [_] => c
  | ["", _] => c
  | _ => String.intercalate "." parts.dropLast

def withSuffixSymlink (p : PathC) : PathC :=
  p.dropLast ++ [stripLastSuffix ((p.getLast?).getD "") ++ ".symlink"]

/-! ## Reconciliation primitives (`files/linker.py`, `files/copier.py`) -/

/-- `_backup_existing` of `files/linker.py`: for a symlink record its
resolved target as a text file, for a real directory copy the tree, else
copy the file, all under `backup_dir` at the path relative to home. -/
def backup_existing_link (fs0 : FS) (home destAbs : PathC) (backupDir : Option PathC) :
    Except PyExc (FS × Bool) :=
  match backupDir with
  | none => .ok (fs0, false)
  | some bdir =>
    if !(fs0.pathExists destAbs || fs0.isSymlink destAbs) then .ok (fs0, false)
    else do
      let relPath := if isPrefixOfP home destAbs
                     then destAbs.drop home.length
                     else [(destAbs.getLast?).getD ""]
      let backupPath := bdir ++ relPath
      let fs ← fs0.mkdirP backupPath.dropLast
      if fs.isSymlink destAbs then
        let target := if fs.pathExists destAbs then joinPath (fs.resolve destAbs) else "broken"
        let rec_ := withSuffixSymlink backupPath
        if rec_ ∈ fs.denied then Except.error .permissionError
        else Except.ok (fs.setNode rec_ (.file target), true)
      else if fs.isDirAt destAbs then do
        let fs ← if fs.pathExists backupPath then fs.rmtree backupPath else pure fs
        let fs ← fs.copytree destAbs backupPath
        Except.ok (fs, true)
      else do
        let fs ← fs.copy2 destAbs backupPath
        Except.ok (fs, true)

/-- `_backup_existing` of `files/copier.py`: like the linker version but
with no symlink case and triggered only when the destination exists. -/
def backup_existing_copy (fs0 : FS) (home destAbs : PathC) (backupDir : Option PathC) :
    Except PyExc (FS × Bool) :=
  match backupDir with
  | none => .ok (fs0, false)
  | some bdir =>
    if !fs0.pathExists destAbs then .ok (fs0, false)
    else do
      let relPath := if isPrefixOfP home destAbs
                     then destAbs.drop home.length
                     else [(destAbs.getLast?).getD ""]
      let backupPath := bdir ++ relPath
      let fs ← fs0.mkdirP backupPath.dropLast
      if fs.isDirAt destAbs then do
        let fs ← if fs.pathExists backupPath then fs.rmtree backupPath else pure fs
        let fs ← fs.copytree destAbs backupPath
        Except.ok (fs, true)
      else do
        let fs ← fs.copy2 destAbs backupPath
        Except.ok (fs, true)

/-- `create_symlink` of `files/linker.py`.  The inner `try`/`except
OSError` around `resolve()` is dead under non-strict resolution, so the
already-correct check is the plain comparison of resolved paths. -/
def create_symlink (fs0 : FS) (home source dest : PathC) (force : Bool)
    (backupDir : Option PathC) : Except PyExc (Bool × String × FS) := do
  let destAbs := home ++ dest
  let fs ← fs0.mkdirP destAbs.dropLast
  if fs.pathExists destAbs || fs.isSymlink destAbs then
    if fs.isSymlink destAbs ∧ fs.resolve destAbs = fs.resolve source then
      pure (true, "ok", fs)
    else if !force then
      pure (false, "conflict", fs)
    else do
      let (fs, _) ← backup_existing_link fs home destAbs backupDir
      let fs ← if fs.isDirAt destAbs ∧ ¬ fs.isSymlink destAbs
               then fs.rmtree destAbs else fs.unlink destAbs
      let fs ← fs.symlinkTo destAbs source
      pure (true, "created", fs)
  else do
    let fs ← fs.symlinkTo destAbs source
    pure (true, "created", fs)

/-- Case-insensitive substring heuristic `_is_sensitive` of
`files/copier.py`. -/
def is_sensitive (dest : PathC) : Bool :=
  let s := lowerStr (joinPath dest)
  ["ssh", "secret", "key", "credential", "token", "password"].any
    (fun pat => strContains s pat)

/-- `os.chmod(dest, 0o600)`: permission bits are not part of the modelled
state, so this changes nothing observable here. -/
def FS.chmod600 (fs : FS) (_p : PathC) : FS := fs

/-- The unconditional copy tail of `copy_file`: replace the destination
with the source file or tree, then restrict permissions for sensitive
paths. -/
def copyPayload (fs0 : FS) (source destAbs dest : PathC) :
    Except PyExc (Bool × String × FS) := do
  let fs ←
    if fs0.isDirAt source then do
      let fs ← if fs0.pathExists destAbs then fs0.rmtree destAbs else pure fs0
      fs.copytree source destAbs
    else
      fs0.copy2 source destAbs
  let fs := if is_sensitive dest then fs.chmod600 destAbs else fs
  pure (true, "copied", fs)

/-- `copy_file` of `files/copier.py`: `filecmp.cmp(..., shallow=False)` is
the byte-for-byte comparison of the two files. -/
def copy_file (fs0 : FS) (home source dest : PathC) (force : Bool)
    (backupDir : Option PathC) : Except PyExc (Bool × String × FS) := do
  let destAbs := home ++ dest
  let fs ← fs0.mkdirP destAbs.dropLast
  if fs.pathExists destAbs then
    if fs.isFileAt destAbs ∧ fs.isFileAt source ∧ fs.readBytes source = fs.readBytes destAbs then
      pure (true, "ok", fs)
    else if !force then
      pure (false, "conflict", fs)
    else do
      let (fs, _) ← backup_existing_copy fs home destAbs backupDir
      copyPayload fs source destAbs dest
  else
    copyPayload fs source destAbs dest

/-- `Path.resolve()` as the source wraps it in `try`/`except OSError`:
non-strict resolution never raises `OSError` (the path is resolved as far
as possible and the remainder appended), so the result is always present. -/
def osResolve (fs : FS) (p : PathC) : Option PathC := some (fs.resolve p)

/-- `check_symlink` of `files/linker.py`. -/
def check_symlink (fs : FS) (home source dest : PathC) : String :=
  let destAbs := home ++ dest
  if ¬ fs.pathExists destAbs ∧ ¬ fs.isSymlink destAbs then "missing"
  else if ¬ fs.isSymlink destAbs then "conflict"
  else
    match osResolve fs destAbs, osResolve fs source with
    | some a, some b => if a = b then "ok" else "wrong"
    | _, _ => "broken"

/-! ## Orchestration (`commands/sync.py`) -/

/-- The configuration values `apply`/`collect` read. -/
structure Config where
  home : PathC
  dotfilesPath : PathC
  platform : String

/-- Counters and per-entry console lines of one `apply` run. -/
structure SyncReport where
  okCount : Nat
  skipCount : Nat
  errCount : Nat
  lines : List String
deriving Repr, DecidableEq

/-- One iteration of the `apply` loop.  Note there is no `try` around the
reconciler calls: any exception they raise propagates out of the loop. -/
def applyStep (cfg : Config) (force dryRun : Bool) (backupDir : Option PathC)
    (st : SyncReport × FS) (e : FileEntry) : Except PyExc (SyncReport × FS) := do
  let (rep, fs) := st
  let sourceAbs := cfg.dotfilesPath ++ e.source
  let destDisplay := "~/" ++ joinPath e.dest
  if ¬ fs.pathExists sourceAbs then
    pure ({ rep with
             errCount := rep.errCount + 1
             lines := rep.lines ++ [destDisplay ++ " - source not found"] }, fs)
  else if dryRun then
    pure ({ rep with lines := rep.lines ++
            ["[dry-run] " ++ e.type ++ " " ++ joinPath e.source ++ " -> " ++ destDisplay] }, fs)
  else do
    let r ← if e.type == "symlink"
            then create_symlink fs cfg.home sourceAbs e.dest force backupDir
            else copy_file fs cfg.home sourceAbs e.dest force backupDir
    let (ok, status, fs2) := r
    if ok then
      pure ({ rep with
               okCount := rep.okCount + 1
               lines := rep.lines ++
                 [if status == "ok" then destDisplay ++ " (already ok)" else destDisplay] }, fs2)
    else if status == "conflict" && !force then
      pure ({ rep with
               skipCount := rep.skipCount + 1
               lines := rep.lines ++ [destDisplay ++ " - exists"] }, fs2)
    else
      pure ({ rep with
               errCount := rep.errCount + 1
               lines := rep.lines ++ [destDisplay ++ " - failed: " ++ status] }, fs2)

/-- `apply` of `commands/sync.py`: platform filter, one shared timestamped
backup directory when forcing, the per-entry loop, and removal of the
backup directory when it stayed empty. -/
def applyModel (cfg : Config) (ts : String) (fs0 : FS) (entries : List FileEntry)
    (force dryRun : Bool) : Except PyExc (SyncReport × FS) := do
  if entries.isEmpty then
    pure (⟨0, 0, 0, ["No files in manifest"]⟩, fs0)
  else do
    let ents := Manifest.for_platform entries cfg.platform
    let bdfs ←
      if force && !dryRun then do
        let bd := cfg.dotfilesPath ++ ["backups", "pre-apply-" ++ ts]
        let fs1 ← fs0.mkdirP bd
        pure ((some bd : Option PathC), fs1)
      else pure ((none : Option PathC), fs0)
    let (backupDir, fs1) := bdfs
    let stout ← ents.foldlM (applyStep cfg force dryRun backupDir) (⟨0, 0, 0, []⟩, fs1)
    let (rep, fs2) := stout
    if dryRun then
      pure (rep, fs2)
    else
      match backupDir with
      | none => pure (rep, fs2)
      | some bd =>
        if fs2.nodes.any (fun kv => isPrefixOfP bd kv.1 && decide (kv.1 ≠ bd)) then
          pure ({ rep with lines := rep.lines ++ ["Backups saved"] }, fs2)
        else do
          let fs3 ← fs2.rmdir bd
          pure (rep, fs3)

/-- What the `collect` loop did with one entry. -/
inductive CollectAction where
  | skippedMissing
  | skippedSymlink
  | skippedUnchanged
  | wouldCollect
  | collected
  | failed
deriving Repr, DecidableEq

/-- Counters, per-entry actions and filesystem of one `collect` run. -/
structure CollectState where
  collected : Nat
  skipped : Nat
  actions : List CollectAction
  fs : FS
deriving Repr, DecidableEq

/-- The body of the `try` block of the collect loop: make the source's
parent, then replace the repository source with the destination file or
tree (directories wholesale: remove then recreate). -/
def collectCopyBack (fs : FS) (sourceAbs destAbs : PathC) : Except PyExc FS := do
  let fs1 ← fs.mkdirP sourceAbs.dropLast
  if fs1.isDirAt destAbs then do
    let fs2 ← if fs1.pathExists sourceAbs then fs1.rmtree sourceAbs else pure fs1
    fs2.copytree destAbs sourceAbs
  else fs1.copy2 destAbs sourceAbs

/-- One iteration of the `collect` loop.  The unchanged check reads both
files outside any `try` (so `read_bytes` on a directory source
propagates), while the copy-back block is wrapped in `try`/`except`, which
reports the failure without counting it anywhere and moves on. -/
def collectStep (cfg : Config) (dryRun : Bool) (st : CollectState) (e : FileEntry) :
    Except PyExc CollectState := do
  let sourceAbs := cfg.dotfilesPath ++ e.source
  let destAbs := cfg.home ++ e.dest
  if ¬ st.fs.pathExists destAbs then
    pure { st with skipped := st.skipped + 1, actions := st.actions ++ [.skippedMissing] }
  else if st.fs.isSymlink destAbs then
    pure { st with skipped := st.skipped + 1, actions := st.actions ++ [.skippedSymlink] }
  else do
    let unchanged ←
      if st.fs.pathExists sourceAbs then
        if st.fs.isDirAt destAbs then pure false
        else do
          let sb ← st.fs.readBytesE sourceAbs
          let db ← st.fs.readBytesE destAbs
          pure (sb == db)
      else pure false
    if unchanged then
      pure { st with skipped := st.skipped + 1, actions := st.actions ++ [.skippedUnchanged] }
    else if dryRun then
      pure { st with collected := st.collected + 1, actions := st.actions ++ [.wouldCollect] }
    else
      match collectCopyBack st.fs sourceAbs destAbs with
      | .ok fs3 =>
        pure { st with
               collected := st.collected + 1
               actions := st.actions ++ [.collected]
               fs := fs3 }
      | .error _ =>
        pure { st with actions := st.actions ++ [.failed] }

/-- `collect` of `commands/sync.py`. -/
def collectModel (cfg : Config) (fs0 : FS) (entries : List FileEntry) (dryRun : Bool) :
    Except PyExc CollectState := do
  if entries.isEmpty then
    pure ⟨0, 0, [], fs0⟩
  else
    (Manifest.for_platform entries cfg.platform).foldlM (collectStep cfg dryRun) ⟨0, 0, [], fs0⟩

/-! ## Helper lemmas -/

/-- Keys `Manifest.save` may emit. -/
def allowedKey (s : String) : Prop := s = "symlinks" ∨ s = "copies" ∨ s = "platform"

/-- Every section value of a platform group is non-empty. -/
def sectsOk : Yaml → Prop
  | .map ss => ∀ kv ∈ ss, yamlFalsy kv.2 = false
  | _ => True

/-- Every platform group is non-empty and has non-empty sections. -/
def platsOk : Yaml → Prop
  | .map ps => ∀ kv ∈ ps, yamlFalsy kv.2 = false ∧ sectsOk kv.2
  | _ => True

theorem mem_dictSet {d : List (String × Yaml)} {k : String} {v : Yaml} :
    ∀ kv ∈ dictSet d k v, kv.1 = k ∨ kv ∈ d := by
  induction d with
  | nil =>
    intro kv hkv
    simp only [dictSet, List.mem_singleton] at hkv
    exact Or.inl (by rw [hkv])
  | cons hd tl ih =>
    intro kv hkv
    simp only [dictSet] at hkv
    by_cases hk : hd.1 = k
    · simp only [hk, if_pos rfl] at hkv
      rcases List.mem_cons.mp hkv with h | h
      · exact Or.inl (by rw [h])
      · exact Or.inr (List.mem_cons_of_mem _ h)
    · rw [if_neg hk] at hkv
      rcases List.mem_cons.mp hkv with h | h
      · exact Or.inr (by rw [h]; exact List.mem_cons_self _ _)
      · rcases ih kv h with h2 | h2
        · exact Or.inl h2
        · exact Or.inr (List.mem_cons_of_mem _ h2)

theorem saveEntryStep_keys {d : List (String × Yaml)} {e : FileEntry}
    (h : ∀ kv ∈ d, allowedKey kv.1) : ∀ kv ∈ Manifest.saveEntryStep d e, allowedKey kv.1 := by
  intro kv hkv
  unfold Manifest.saveEntryStep at hkv
  cases hp : e.platform with
  | some plat =>
    rw [hp] at hkv
    rcases mem_dictSet kv hkv with h2 | h2
    · exact Or.inr (Or.inr h2)
    · exact h kv h2
  | none =>
    rw [hp] at hkv
    rcases mem_dictSet kv hkv with h2 | h2
    · by_cases ht : (e.type == "symlink") = true
      · rw [ht] at h2
        simp only [if_true] at h2
        exact Or.inl h2
      · rw [Bool.not_eq_true] at ht
        rw [ht] at h2
        simp only [Bool.false_eq_true, if_false] at h2
        exact Or.inr (Or.inl h2)
    · exact h kv h2

theorem buildSaveData_keys (entries : List FileEntry) :
    ∀ kv ∈ Manifest.buildSaveData entries, allowedKey kv.1 := by
  unfold Manifest.buildSaveData
  have base : ∀ kv ∈ [(("symlinks" : String), Yaml.map [])], allowedKey kv.1 := by
    intro kv hkv
    rw [List.mem_singleton.mp hkv]
    exact Or.inl rfl
  revert base
  generalize [(("symlinks" : String), Yaml.map [])] = d
  induction entries generalizing d with
  | nil => intro base; exact base
  | cons e tl ih =>
    intro base
    exact ih _ (saveEntryStep_keys base)

theorem cleanData_src {d : List (String × Yaml)} :
    ∀ kv ∈ Manifest.cleanData d, ∃ kv0 ∈ d, kv.1 = kv0.1 ∧
      (kv0.1 = "platform" → kv.2 = Manifest.cleanPlatform kv0.2) := by
  intro kv h
  unfold Manifest.cleanData at h
  rcases List.mem_filter.mp h with ⟨h2, _⟩
  rcases List.mem_map.mp h2 with ⟨kv1, hkv1, heq⟩
  rcases List.mem_filter.mp hkv1 with ⟨h0, _⟩
  refine ⟨kv1, h0, ?_⟩
  by_cases hk : kv1.1 = "platform"
  · rw [if_pos hk] at heq
    rw [← heq]
    exact ⟨rfl, fun _ => rfl⟩
  · rw [if_neg hk] at heq
    rw [← heq]
    exact ⟨rfl, fun hc => absurd hc hk⟩

theorem cleanData_not_falsy {d : List (String × Yaml)} :
    ∀ kv ∈ Manifest.cleanData d, yamlFalsy kv.2 = false := by
  intro kv h
  rcases List.mem_filter.mp h with ⟨_, hb⟩
  simpa using hb

theorem cleanSections_ok (y : Yaml) : sectsOk (Manifest.cleanSections y) := by
  cases y with
  | map ss =>
    simp only [Manifest.cleanSections, sectsOk]
    intro kv hkv
    rcases List.mem_filter.mp hkv with ⟨_, hb⟩
    simpa using hb
  | null => trivial
  | str s => trivial
  | list xs => trivial

theorem cleanPlatform_ok (y : Yaml) : platsOk (Manifest.cleanPlatform y) := by
  cases y with
  | map ps =>
    simp only [Manifest.cleanPlatform, platsOk]
    intro kv hkv
    rcases List.mem_filter.mp hkv with ⟨hm, hb⟩
    rcases List.mem_map.mp hm with ⟨kv0, _, heq⟩
    constructor
    · simpa using hb
    · rw [← heq]
      exact cleanSections_ok kv0.2
  | null => trivial
  | str s => trivial
  | list xs => trivial

theorem dictGet_eq_none {d : List (String × Yaml)} {k : String}
    (h : ∀ kv ∈ d, kv.1 ≠ k) : dictGet d k = none := by
  induction d with
  | nil => rfl
  | cons hd tl ih =>
    simp only [dictGet]
    rw [if_neg (h hd (List.mem_cons_self _ _))]
    exact ih (fun kv hkv => h kv (List.mem_cons_of_mem _ hkv))

/-! ## Claim C3 -/

/-- C3 counterexample: `Manifest.save` on a manifest with one symlink
entry writes the legacy nested `symlinks` mapping and no top-level
`entries` list at all, refuting the claim that only the flat
list-of-entries shape is ever serialized. -/
theorem C3_counterexample :
    Manifest.save [⟨["files", "vimrc"], [".vimrc"], "symlink", none⟩] =
      [("symlinks", Yaml.map [("files/vimrc", Yaml.str ".vimrc")])]
    ∧ dictGet (Manifest.save [⟨["files", "vimrc"], [".vimrc"], "symlink", none⟩]) "entries" =
        none :=
  ⟨rfl, rfl⟩

/-- C3 (amended): for every manifest, `Manifest.save` serializes only the
legacy nested shape — the written document never has an `entries` key, its
top-level keys are among `symlinks`/`copies`/`platform`, and empty
groupings are omitted at every level. -/
theorem C3_save_shape (entries : List FileEntry) :
    dictGet (Manifest.save entries) "entries" = none
    ∧ (∀ kv ∈ Manifest.save entries, allowedKey kv.1)
    ∧ (∀ kv ∈ Manifest.save entries, yamlFalsy kv.2 = false)
    ∧ (∀ kv ∈ Manifest.save entries, kv.1 = "platform" → platsOk kv.2) := by
  have keys : ∀ kv ∈ Manifest.save entries, allowedKey kv.1 := by
    intro kv h
    rcases cleanData_src kv h with ⟨kv0, h0, heq, _⟩
    rw [heq]
    exact buildSaveData_keys entries kv0 h0
  refine ⟨?_, keys, cleanData_not_falsy, ?_⟩
  · apply dictGet_eq_none
    intro kv h
    rcases keys kv h with h2 | h2 | h2 <;> rw [h2] <;> decide
  · intro kv h hplat
    rcases cleanData_src kv h with ⟨kv0, _, heq, hcp⟩
    rw [hcp (heq ▸ hplat)]
    exact cleanPlatform_ok kv0.2

/-- Manifest used to instantiate the C3 theorem. -/
def c3Ents : List FileEntry :=
  [⟨["files", "vimrc"], [".vimrc"], "symlink", none⟩,
   ⟨["files", "kitty"], [".config", "kitty"], "copy", some "darwin"⟩]

/-- C3 witness: the amended theorem applied to a concrete two-entry
manifest, with the membership hypothesis discharged on the first written
key. -/
theorem C3_witness :
    dictGet (Manifest.save c3Ents) "entries" = none ∧ allowedKey "symlinks" := by
  have hm : Manifest.save c3Ents =
      [("symlinks", Yaml.map [("files/vimrc", Yaml.str ".vimrc")]),
       ("platform", Yaml.map [("darwin",
          Yaml.map [("copies", Yaml.map [("files/kitty", Yaml.str ".config/kitty")])])])] := rfl
  refine ⟨(C3_save_shape c3Ents).1, ?_⟩
  exact (C3_save_shape c3Ents).2.1
    ("symlinks", Yaml.map [("files/vimrc", Yaml.str ".vimrc")])
    (hm ▸ List.mem_cons_self _ _)

/-! ## Claim C5 -/

/-- C5 counterexample: a malformed document (`entries:` holding the string
`"oops"`) makes `Manifest.load` raise an uncaught `TypeError` — it neither
signals any `ConfigError` (no such type exists in the source) nor lets the
caller proceed with an empty manifest. -/
theorem C5_counterexample :
    Manifest.load (.parsed (.map [("entries", .str "oops")])) = .error .typeError
    ∧ Manifest.load (.parsed (.map [("entries", .str "oops")])) ≠ .ok [] :=
  ⟨rfl, fun h => Except.noConfusion h⟩

/-- C5 (amended): `Manifest.load` recovers only when the file is absent or
the document is empty; unparseable YAML propagates `yaml.YAMLError` and a
structurally malformed document propagates the raw
`TypeError`/`AttributeError` to the caller — there is no `ConfigError` and
no fallback to an empty manifest for malformed content. -/
theorem C5_load_exceptions :
    Manifest.load .absent = .ok []
    ∧ Manifest.load .unparseable = .error .yamlError
    ∧ Manifest.load (.parsed .null) = .ok []
    ∧ Manifest.load (.parsed (.list [.str "x"])) = .error .attributeError
    ∧ Manifest.load (.parsed (.map [("symlinks", .str "zzz")])) = .error .attributeError :=
  ⟨rfl, rfl, rfl, rfl, rfl⟩

/-! ## Claims C8 and C10 -/

theorem add_map_dest (es : List FileEntry) (source dest : PathC) (ty : String)
    (plat : Option String) :
    (Manifest.add es source dest ty plat).map FileEntry.dest =
      if dest ∈ es.map FileEntry.dest then es.map FileEntry.dest
      else es.map FileEntry.dest ++ [dest] := by
  induction es with
  | nil => simp [Manifest.add]
  | cons e tl ih =>
    by_cases h : e.dest = dest
    · simp [Manifest.add, h]
    · have h2 : ¬(dest = e.dest) := fun hh => h hh.symm
      simp only [Manifest.add, if_neg h, List.map_cons, ih, List.mem_cons]
      by_cases hm : dest ∈ tl.map FileEntry.dest
      · simp [hm, h2]
      · simp [hm, h2]

/-- C8: `Manifest.add` with a dest equal to an existing entry's dest
replaces that entry in place (source, type and platform all updated, found
again by `find_by_dest`), the entry count is unchanged, every resulting
entry is either the new record or one of the old ones, and dest-uniqueness
of the manifest is preserved by every add. -/
theorem C8_add_upsert (es : List FileEntry) (source dest : PathC) (ty : String)
    (plat : Option String) :
    (dest ∈ es.map FileEntry.dest →
        (Manifest.add es source dest ty plat).length = es.length
        ∧ Manifest.find_by_dest (Manifest.add es source dest ty plat) dest =
            some ⟨source, dest, ty, plat⟩)
    ∧ (∀ e ∈ Manifest.add es source dest ty plat, e = ⟨source, dest, ty, plat⟩ ∨ e ∈ es)
    ∧ ((es.map FileEntry.dest).Nodup →
        ((Manifest.add es source dest ty plat).map FileEntry.dest).Nodup) := by
  refine ⟨fun hmem => ⟨?_, ?_⟩, ?_, fun hnd => ?_⟩
  · rw [← List.length_map (Manifest.add es source dest ty plat) FileEntry.dest,
      add_map_dest, if_pos hmem, List.length_map]
  · clear hmem
    induction es with
    | nil => simp [Manifest.add, Manifest.find_by_dest]
    | cons e tl ih =>
      by_cases h : e.dest = dest
      · simp [Manifest.add, h, Manifest.find_by_dest]
      · simp [Manifest.add, h, Manifest.find_by_dest, ih]
  · induction es with
    | nil =>
      intro e he
      simp only [Manifest.add, List.mem_singleton] at he
      exact Or.inl he
    | cons e0 tl ih =>
      intro e he
      by_cases h : e0.dest = dest
      · simp only [Manifest.add, if_pos h] at he
        rcases List.mem_cons.mp he with h2 | h2
        · exact Or.inl h2
        · exact Or.inr (List.mem_cons_of_mem _ h2)
      · simp only [Manifest.add, if_neg h] at he
        rcases List.mem_cons.mp he with h2 | h2
        · exact Or.inr (h2 ▸ List.mem_cons_self _ _)
        · rcases ih e h2 with h3 | h3
          · exact Or.inl h3
          · exact Or.inr (List.mem_cons_of_mem _ h3)
  · rw [add_map_dest]
    by_cases hm : dest ∈ es.map FileEntry.dest
    · rwa [if_pos hm]
    · rw [if_neg hm]
      simp [List.nodup_append, hnd, hm]

/-- Manifest used to instantiate the C8 and C10 theorems. -/
def c8Es : List FileEntry := [⟨["s"], ["d"], "symlink", none⟩]

/-- C8 witness: the theorem applied to a one-entry manifest whose dest is
re-added, with the membership and uniqueness hypotheses discharged
concretely. -/
theorem C8_witness :
    (Manifest.add c8Es ["s2"] ["d"] "copy" (some "darwin")).length = 1
    ∧ Manifest.find_by_dest (Manifest.add c8Es ["s2"] ["d"] "copy" (some "darwin")) ["d"] =
        some ⟨["s2"], ["d"], "copy", some "darwin"⟩
    ∧ ((Manifest.add c8Es ["s2"] ["d"] "copy" (some "darwin")).map FileEntry.dest).Nodup := by
  have h := C8_add_upsert c8Es ["s2"] ["d"] "copy" (some "darwin")
  exact ⟨(h.1 (by decide)).1, (h.1 (by decide)).2, h.2.2 (by decide)⟩

/-- C10: `Manifest.remove` returns (and persists) `true` exactly when some
entry has the given dest; when it returns `false` the entry list is
unchanged and no save happens; when it returns `true` exactly one entry
was removed. -/
theorem C10_remove_semantics (es : List FileEntry) (dest : PathC) :
    ((Manifest.remove es dest).2 = true ↔ dest ∈ es.map FileEntry.dest)
    ∧ ((Manifest.remove es dest).2 = false → Manifest.remove es dest = (es, false))
    ∧ (dest ∈ es.map FileEntry.dest → (Manifest.remove es dest).1.length + 1 = es.length) := by
  induction es with
  | nil => simp [Manifest.remove]
  | cons e tl ih =>
    by_cases h : e.dest = dest
    · simp [Manifest.remove, h]
    · have h2 : ¬(dest = e.dest) := fun hh => h hh.symm
      refine ⟨?_, ?_, ?_⟩
      · simp only [Manifest.remove, if_neg h, List.map_cons, List.mem_cons]
        rw [ih.1]
        simp [h2]
      · intro hf
        simp only [Manifest.remove, if_neg h] at hf ⊢
        rw [ih.2.1 hf]
      · intro hmem
        simp only [List.map_cons, List.mem_cons] at hmem
        rcases hmem with hmem | hmem
        · exact absurd hmem h2
        · simp only [Manifest.remove, if_neg h, List.length_cons]
          rw [← ih.2.2 hmem]

/-- C10 witness: the theorem applied to a one-entry manifest, once with a
dest that matches nothing (list returned unchanged, not saved) and once
with the tracked dest (one entry removed). -/
theorem C10_witness :
    Manifest.remove c8Es ["nope"] = (c8Es, false)
    ∧ (Manifest.remove c8Es ["d"]).1.length + 1 = c8Es.length := by
  have h1 := C10_remove_semantics c8Es ["nope"]
  have h2 := C10_remove_semantics c8Es ["d"]
  exact ⟨h1.2.1 (by decide), h2.2.2 (by decide)⟩

/-! ## Reconciler lemmas and fixtures -/

/-- Every directory `dest.parent.mkdir(parents=True, exist_ok=True)` would
walk already exists, making the call a no-op. -/
def parentsReady (fs : FS) (p : PathC) : Prop :=
  ∀ q ∈ pathPrefixes p.dropLast, (fs.lookup q).isSome = true

theorem mkdirChain_noop (fs : FS) (l : List PathC)
    (h : ∀ q ∈ l, (fs.lookup q).isSome = true) : mkdirChain fs l = .ok fs := by
  induction l with
  | nil => rfl
  | cons a tl ih =>
    rcases Option.isSome_iff_exists.mp (h a (List.mem_cons_self a tl)) with ⟨n, hn⟩
    unfold mkdirChain
    rw [hn]
    exact ih (fun q hq => h q (List.mem_cons_of_mem a hq))

theorem mkdirP_parent_noop (fs : FS) (p : PathC) (h : parentsReady fs p) :
    fs.mkdirP p.dropLast = .ok fs :=
  mkdirChain_noop fs (pathPrefixes p.dropLast) h

theorem except_bind_ok {α β : Type} (a : α) (k : α → Except PyExc β) :
    (Except.ok a : Except PyExc α) >>= k = k a := rfl

theorem except_bind_error {α β : Type} (err : PyExc) (k : α → Except PyExc β) :
    (Except.error err : Except PyExc α) >>= k = .error err := rfl

theorem except_pure_ok {α : Type} (a : α) : (pure a : Except PyExc α) = .ok a := rfl

/-- Home and repo roots of the concrete examples. -/
def exHome : PathC := ["home", "u"]

def exRepo : PathC := ["repo"]

def exCfg : Config := ⟨exHome, exRepo, "linux"⟩

/-- The directories every concrete example filesystem carries. -/
def baseNodes : List (PathC × Node) :=
  [(["home"], .dir), (["home", "u"], .dir), (["repo"], .dir), (["repo", "files"], .dir)]

/-- A repo with a config directory tracked as a copy entry; the home side
does not have it yet. -/
def fsDirCopy : FS :=
  ⟨baseNodes ++ [(["repo", "files", "nvim"], .dir),
                 (["repo", "files", "nvim", "init.lua"], .file "cfg")], []⟩

/-- Home already holds a symlink to the tracked source. -/
def fsLinkOk : FS :=
  ⟨baseNodes ++ [(["repo", "files", "a"], .file "x"),
                 (["home", "u", ".a"], .symlink ["repo", "files", "a"])], []⟩

/-- Home already holds a byte-identical copy of the tracked file. -/
def fsCopySame : FS :=
  ⟨baseNodes ++ [(["repo", "files", "a"], .file "same"),
                 (["home", "u", ".a"], .file "same")], []⟩

/-- Home holds an unrelated regular file at the tracked dest. -/
def fsConf : FS :=
  ⟨baseNodes ++ [(["repo", "files", "a"], .file "new"),
                 (["home", "u", ".a"], .file "old")], []⟩

/-! ## Claim C1 -/

/-- C1 counterexample: a copy entry whose source is a directory is not
idempotent — the first `copy_file` run succeeds with `(true, "copied")`,
but the second run on the resulting filesystem returns
`(false, "conflict")` instead of the claimed `(true, "ok")`, because the
already-identical check only recognizes regular files. -/
theorem C1_counterexample :
    (copy_file fsDirCopy exHome ["repo", "files", "nvim"] [".config", "nvim"] false none).map
        (fun r => (r.1, r.2.1)) = .ok (true, "copied")
    ∧ ((copy_file fsDirCopy exHome ["repo", "files", "nvim"] [".config", "nvim"] false none).bind
        (fun r => copy_file r.2.2 exHome ["repo", "files", "nvim"] [".config", "nvim"] false none)).map
          (fun r2 => (r2.1, r2.2.1)) = .ok (false, "conflict") :=
  ⟨rfl, by decide⟩

/-- C1 (amended): with `force=false` the second run is a no-op
`(true, "ok")` for a symlink entry whose dest is already a symlink
resolving to source and for a copy entry whose source and dest are regular
files with identical bytes; a copy entry whose dest exists but is not an
identical regular file (in particular a directory copy applied twice)
returns `(false, "conflict")` on the second run instead. -/
theorem C1_second_run_noop (fs : FS) (home source dest : PathC) (bd : Option PathC)
    (hpar : parentsReady fs (home ++ dest)) :
    (fs.isSymlink (home ++ dest) = true →
       fs.resolve (home ++ dest) = fs.resolve source →
       create_symlink fs home source dest false bd = .ok (true, "ok", fs))
    ∧ (fs.pathExists (home ++ dest) = true →
       fs.isFileAt (home ++ dest) = true →
       fs.isFileAt source = true →
       fs.readBytes source = fs.readBytes (home ++ dest) →
       copy_file fs home source dest false bd = .ok (true, "ok", fs))
    ∧ (fs.pathExists (home ++ dest) = true →
       ¬(fs.isFileAt (home ++ dest) = true ∧ fs.isFileAt source = true ∧
         fs.readBytes source = fs.readBytes (home ++ dest)) →
       copy_file fs home source dest false bd = .ok (false, "conflict", fs)) := by
  have hmk := mkdirP_parent_noop fs (home ++ dest) hpar
  refine ⟨fun hs hr => ?_, fun he hf1 hf2 hb => ?_, fun he hno => ?_⟩
  · unfold create_symlink
    dsimp only
    rw [hmk, except_bind_ok]
    simp only [hs, hr, and_self, if_true, Bool.or_true, true_and]
    rfl
  · unfold copy_file
    dsimp only
    rw [hmk, except_bind_ok]
    simp only [he, hf1, hf2, hb, and_self, if_true, true_and]
    rfl
  · unfold copy_file
    dsimp only
    rw [hmk, except_bind_ok]
    simp only [he, if_true]
    rw [if_neg ?_]
    · rfl
    · intro hc
      exact hno ⟨hc.1, hc.2.1, hc.2.2⟩

/-- C1 witness: the amended theorem applied to a home that already has the
correct symlink and to a home that already has a byte-identical copy. -/
theorem C1_witness :
    create_symlink fsLinkOk exHome ["repo", "files", "a"] [".a"] false none =
      .ok (true, "ok", fsLinkOk)
    ∧ copy_file fsCopySame exHome ["repo", "files", "a"] [".a"] false none =
      .ok (true, "ok", fsCopySame) :=
  ⟨(C1_second_run_noop fsLinkOk exHome ["repo", "files", "a"] [".a"] none
      (by unfold parentsReady; decide)).1 (by rfl) (by rfl),
   (C1_second_run_noop fsCopySame exHome ["repo", "files", "a"] [".a"] none
      (by unfold parentsReady; decide)).2.1 (by rfl) (by rfl) (by rfl) (by rfl)⟩

/-! ## Claim C2 -/

/-- C2: when the destination exists (or is a dangling symlink) and is
neither a symlink resolving to source nor a byte-identical regular file,
`create_symlink`/`copy_file` with `force=false` return
`(false, "conflict")` and hand back the filesystem unchanged — in
particular the destination's content is byte-for-byte untouched. -/
theorem C2_conflict_no_clobber (fs : FS) (home source dest : PathC) (bd : Option PathC)
    (hpar : parentsReady fs (home ++ dest)) :
    ((fs.pathExists (home ++ dest) = true ∨ fs.isSymlink (home ++ dest) = true) →
     ¬(fs.isSymlink (home ++ dest) = true ∧ fs.resolve (home ++ dest) = fs.resolve source) →
     create_symlink fs home source dest false bd = .ok (false, "conflict", fs))
    ∧ (fs.pathExists (home ++ dest) = true →
       ¬(fs.isFileAt (home ++ dest) = true ∧ fs.isFileAt source = true ∧
         fs.readBytes source = fs.readBytes (home ++ dest)) →
       copy_file fs home source dest false bd = .ok (false, "conflict", fs)) := by
  have hmk := mkdirP_parent_noop fs (home ++ dest) hpar
  refine ⟨fun he hno => ?_, fun he hno => ?_⟩
  · unfold create_symlink
    dsimp only
    rw [hmk, except_bind_ok]
    have hor : (fs.pathExists (home ++ dest) || fs.isSymlink (home ++ dest)) = true := by
      rcases he with h | h <;> simp [h]
    simp only [hor, if_true]
    rw [if_neg hno]
    rfl
  · unfold copy_file
    dsimp only
    rw [hmk, except_bind_ok]
    simp only [he, if_true]
    rw [if_neg ?_]
    · rfl
    · intro hc
      exact hno ⟨hc.1, hc.2.1, hc.2.2⟩

/-- C2 witness: both reconcilers applied to a home whose dest is an
unrelated regular file with different content; each returns the conflict
status with the filesystem unchanged. -/
theorem C2_witness :
    create_symlink fsConf exHome ["repo", "files", "a"] [".a"] false none =
      .ok (false, "conflict", fsConf)
    ∧ copy_file fsConf exHome ["repo", "files", "a"] [".a"] false none =
      .ok (false, "conflict", fsConf) :=
  ⟨(C2_conflict_no_clobber fsConf exHome ["repo", "files", "a"] [".a"] none
      (by unfold parentsReady; decide)).1 (Or.inl (by rfl)) (by decide),
   (C2_conflict_no_clobber fsConf exHome ["repo", "files", "a"] [".a"] none
      (by unfold parentsReady; decide)).2 (by rfl) (by decide)⟩

/-! ## Claim C4 -/

/-- Home holds a dangling symlink pointing outside the repository. -/
def fsDang : FS :=
  ⟨baseNodes ++ [(["repo", "files", "vimrc"], .file "set nu"),
                 (["home", "u", ".vimrc"], .symlink ["outside", "gone"])], []⟩

/-- C4 counterexample: for a dangling symlink pointing outside the
repository, `check_symlink` returns `"wrong"`, not the claimed
`"broken"` — non-strict `Path.resolve()` does not fail on a dangling
symlink, it returns the non-existing target, which then compares unequal
to the source. -/
theorem C4_counterexample :
    check_symlink fsDang exHome ["repo", "files", "vimrc"] [".vimrc"] = "wrong"
    ∧ check_symlink fsDang exHome ["repo", "files", "vimrc"] [".vimrc"] ≠ "broken" :=
  ⟨rfl, by decide⟩

/-- C4 (amended): `check_symlink` returns `"missing"` when dest is absent
and not a symlink, `"conflict"` when dest exists but is not a symlink, and
for a symlink dest compares the resolutions of dest and source —
`"ok"` on equality, `"wrong"` otherwise (dangling symlinks included, since
non-strict resolution cannot fail); the `"broken"` status is unreachable. -/
theorem C4_check_symlink_statuses (fs : FS) (home source dest : PathC) :
    (fs.pathExists (home ++ dest) = false → fs.isSymlink (home ++ dest) = false →
        check_symlink fs home source dest = "missing")
    ∧ (fs.pathExists (home ++ dest) = true → fs.isSymlink (home ++ dest) = false →
        check_symlink fs home source dest = "conflict")
    ∧ (fs.isSymlink (home ++ dest) = true →
        check_symlink fs home source dest =
          (if fs.resolve (home ++ dest) = fs.resolve source then "ok" else "wrong"))
    ∧ check_symlink fs home source dest ≠ "broken" := by
  have hm : ∀ h1 : fs.pathExists (home ++ dest) = false,
      ∀ h2 : fs.isSymlink (home ++ dest) = false,
      check_symlink fs home source dest = "missing" := by
    intro h1 h2
    simp [check_symlink, h1, h2]
  have hc : ∀ h1 : fs.pathExists (home ++ dest) = true,
      ∀ h2 : fs.isSymlink (home ++ dest) = false,
      check_symlink fs home source dest = "conflict" := by
    intro h1 h2
    simp [check_symlink, h1, h2]
  have hs : ∀ h1 : fs.isSymlink (home ++ dest) = true,
      check_symlink fs home source dest =
        (if fs.resolve (home ++ dest) = fs.resolve source then "ok" else "wrong") := by
    intro h1
    simp [check_symlink, h1, osResolve]
  refine ⟨hm, hc, hs, ?_⟩
  by_cases h1 : fs.isSymlink (home ++ dest) = true
  · rw [hs h1]
    by_cases h2 : fs.resolve (home ++ dest) = fs.resolve source
    · rw [if_pos h2]; decide
    · rw [if_neg h2]; decide
  · rw [Bool.not_eq_true] at h1
    by_cases h2 : fs.pathExists (home ++ dest) = true
    · rw [hc h2 h1]; decide
    · rw [Bool.not_eq_true] at h2
      rw [hm h2 h1]; decide

/-- C4 witness: the amended theorem applied to a home with an unrelated
regular file at dest (conflict) and to a home with a correct symlink
(ok). -/
theorem C4_witness :
    check_symlink fsConf exHome ["repo", "files", "a"] [".a"] = "conflict"
    ∧ check_symlink fsLinkOk exHome ["repo", "files", "a"] [".a"] = "ok" := by
  refine ⟨(C4_check_symlink_statuses fsConf exHome ["repo", "files", "a"] [".a"]).2.1
      (by rfl) (by rfl), ?_⟩
  rw [(C4_check_symlink_statuses fsLinkOk exHome ["repo", "files", "a"] [".a"]).2.2.1 (by rfl)]
  decide

/-! ## Claim C6 -/

/-- Mutating the first entry's destination raises `PermissionError`; a
second healthy entry follows it in the manifest. -/
def fsDenied : FS :=
  ⟨baseNodes ++ [(["repo", "files", "a"], .file "x"), (["repo", "files", "b"], .file "y")],
   [["home", "u", ".a"]]⟩

def eA : FileEntry := ⟨["files", "a"], [".a"], "symlink", none⟩

def eB : FileEntry := ⟨["files", "b"], [".b"], "symlink", none⟩

/-- C6 counterexample: an unexpected filesystem error
(`PermissionError` while creating the first entry's symlink) propagates
out of `apply` — it is not caught per-entry, not added to the errored
total (no report is produced at all), and the remaining entry is never
processed. -/
theorem C6_counterexample :
    applyModel exCfg "t" fsDenied [eA, eB] false false = .error .permissionError := by
  decide

/-- C6 (amended): `apply` wraps no `try` around the reconciler calls: if
the reconciler invocation for the first platform-matching entry raises,
`apply` rethrows that exact exception, aborting all remaining entries and
producing no error count. -/
theorem C6_apply_propagates (cfg : Config) (ts : String) (fs : FS) (e : FileEntry)
    (rest : List FileEntry) (exc : PyExc)
    (hplat : e.platform = none ∨ e.platform = some cfg.platform)
    (hsrc : fs.pathExists (cfg.dotfilesPath ++ e.source) = true)
    (hrun : (if e.type == "symlink"
             then create_symlink fs cfg.home (cfg.dotfilesPath ++ e.source) e.dest false none
             else copy_file fs cfg.home (cfg.dotfilesPath ++ e.source) e.dest false none) =
      .error exc) :
    applyModel cfg ts fs (e :: rest) false false = .error exc := by
  unfold applyModel
  dsimp only
  rw [show ((e :: rest).isEmpty = false) from rfl]
  simp only [Bool.false_eq_true, if_false, Bool.false_and, except_bind_ok, pure_bind]
  rw [show Manifest.for_platform (e :: rest) cfg.platform =
      e :: Manifest.for_platform rest cfg.platform from by
    simp [Manifest.for_platform, List.filter_cons, hplat]]
  rw [show (e :: Manifest.for_platform rest cfg.platform).foldlM
        (applyStep cfg false false none) (⟨0, 0, 0, []⟩, fs) =
      (applyStep cfg false false none (⟨0, 0, 0, []⟩, fs) e) >>= (fun st =>
        (Manifest.for_platform rest cfg.platform).foldlM (applyStep cfg false false none) st)
      from rfl]
  unfold applyStep
  dsimp only
  rw [hsrc]
  simp only [not_true, if_false, Bool.false_eq_true, if_true]
  by_cases ht : (e.type == "symlink") = true
  · rw [if_pos ht] at hrun
    rw [if_pos ht, hrun]
    rfl
  · rw [if_neg ht] at hrun
    rw [if_neg ht, hrun]
    rfl

/-- C6 witness: the amended theorem instantiated on the concrete
denied-destination filesystem with one healthy entry remaining. -/
theorem C6_witness :
    applyModel exCfg "t2" fsDenied [eA, eB] false false = .error .permissionError :=
  C6_apply_propagates exCfg "t2" fsDenied eA [eB] .permissionError (Or.inl rfl)
    (by rfl) (by decide)

/-! ## Claim C7 -/

/-- Identical directory trees on both sides of a copy entry. -/
def fsColl : FS :=
  ⟨baseNodes ++
    [(["repo", "files", "kitty"], .dir),
     (["repo", "files", "kitty", "conf"], .file "a"),
     (["home", "u", ".config"], .dir),
     (["home", "u", ".config", "kitty"], .dir),
     (["home", "u", ".config", "kitty", "conf"], .file "a")], []⟩

def eKitty : FileEntry := ⟨["files", "kitty"], [".config", "kitty"], "copy", none⟩

def eACopy : FileEntry := ⟨["files", "a"], [".a"], "copy", none⟩

/-- C7 counterexample: a destination directory whose content equals the
source directory is not skipped — `collect` always collects directories
(the code comments "can't easily diff"), so the entry is counted as
collected and the repository tree is rewritten. -/
theorem C7_counterexample :
    (collectStep exCfg false ⟨0, 0, [], fsColl⟩ eKitty).map
        (fun st => (st.collected, st.skipped, st.actions)) =
      .ok (1, 0, [CollectAction.collected]) := by
  decide

theorem isFileAt_readBytesE (fs : FS) (p : PathC) (h : fs.isFileAt p = true) :
    ∃ c, fs.readBytesE p = .ok c ∧ fs.readBytes p = some c := by
  unfold FS.isFileAt at h
  unfold FS.readBytesE FS.readBytes
  rcases hl : fs.lookup (fs.resolve p) with _ | n
  · rw [hl] at h
    simp at h
  · rw [hl] at h
    cases n with
    | file c => exact ⟨c, rfl, rfl⟩
    | dir => simp at h
    | symlink t => simp at h

/-- C7 (amended): an entry is skipped by `collect` exactly when the
destination is absent, the destination is a symlink, or the source exists,
the destination is not a directory, and source and destination are
byte-identical regular files; a destination directory is always collected,
identical content or not.  Skipping leaves the filesystem (in particular
the repository source) unchanged.  The safety hypothesis rules out the
uncaught `read_bytes` call on a directory source. -/
theorem C7_collect_skip_iff (cfg : Config) (dryRun : Bool) (c s : Nat)
    (acts : List CollectAction) (fs : FS) (e : FileEntry)
    (hsafe : fs.pathExists (cfg.home ++ e.dest) = true →
             fs.isSymlink (cfg.home ++ e.dest) = false →
             fs.isDirAt (cfg.home ++ e.dest) = false →
             fs.pathExists (cfg.dotfilesPath ++ e.source) = true →
             fs.isFileAt (cfg.dotfilesPath ++ e.source) = true ∧
             fs.isFileAt (cfg.home ++ e.dest) = true) :
    (collectStep cfg dryRun ⟨c, s, acts, fs⟩ e).map CollectState.skipped =
      .ok (if fs.pathExists (cfg.home ++ e.dest) = false
             ∨ fs.isSymlink (cfg.home ++ e.dest) = true
             ∨ (fs.pathExists (cfg.dotfilesPath ++ e.source) = true
                ∧ fs.isDirAt (cfg.home ++ e.dest) = false
                ∧ fs.readBytes (cfg.dotfilesPath ++ e.source) = fs.readBytes (cfg.home ++ e.dest))
           then s + 1 else s)
    ∧ ((fs.pathExists (cfg.home ++ e.dest) = false
         ∨ fs.isSymlink (cfg.home ++ e.dest) = true
         ∨ (fs.pathExists (cfg.dotfilesPath ++ e.source) = true
            ∧ fs.isDirAt (cfg.home ++ e.dest) = false
            ∧ fs.readBytes (cfg.dotfilesPath ++ e.source) = fs.readBytes (cfg.home ++ e.dest))) →
       (collectStep cfg dryRun ⟨c, s, acts, fs⟩ e).map CollectState.fs = .ok fs) := by
  by_cases hd : fs.pathExists (cfg.home ++ e.dest) = true
  · by_cases hsym : fs.isSymlink (cfg.home ++ e.dest) = true
    · -- destination is a symlink: skipped
      have hrun : collectStep cfg dryRun ⟨c, s, acts, fs⟩ e =
          .ok ⟨c, s + 1, acts ++ [.skippedSymlink], fs⟩ := by
        unfold collectStep
        dsimp only
        simp only [hd, hsym, not_true, Bool.true_eq_false, if_false, if_true]
        rfl
      have hcond : fs.pathExists (cfg.home ++ e.dest) = false
          ∨ fs.isSymlink (cfg.home ++ e.dest) = true
          ∨ (fs.pathExists (cfg.dotfilesPath ++ e.source) = true
             ∧ fs.isDirAt (cfg.home ++ e.dest) = false
             ∧ fs.readBytes (cfg.dotfilesPath ++ e.source) =
                 fs.readBytes (cfg.home ++ e.dest)) := Or.inr (Or.inl hsym)
      rw [if_pos hcond, hrun]
      exact ⟨rfl, fun _ => rfl⟩
    · have hsym2 : fs.isSymlink (cfg.home ++ e.dest) = false := by
        rwa [Bool.not_eq_true] at hsym
      by_cases hsrc : fs.pathExists (cfg.dotfilesPath ++ e.source) = true
      · by_cases hdir : fs.isDirAt (cfg.home ++ e.dest) = true
        · -- destination directory: never skipped, always (would-)collected
          have hcond : ¬(fs.pathExists (cfg.home ++ e.dest) = false
              ∨ fs.isSymlink (cfg.home ++ e.dest) = true
              ∨ (fs.pathExists (cfg.dotfilesPath ++ e.source) = true
                 ∧ fs.isDirAt (cfg.home ++ e.dest) = false
                 ∧ fs.readBytes (cfg.dotfilesPath ++ e.source) =
                     fs.readBytes (cfg.home ++ e.dest))) := by
            rw [hd, hsym2, hdir]
            simp
          rw [if_neg hcond]
          refine ⟨?_, fun hc => absurd hc hcond⟩
          unfold collectStep
          dsimp only
          simp only [hd, hsym2, hsrc, hdir, not_true, Bool.false_eq_true, if_false, if_true,
            pure_bind]
          by_cases hdr : dryRun = true
          · rw [hdr]
            rfl
          · rw [Bool.not_eq_true] at hdr
            rw [hdr]
            cases hin : collectCopyBack fs (cfg.dotfilesPath ++ e.source) (cfg.home ++ e.dest) with
            | ok fs3 => rfl
            | error err => rfl
        · -- regular-file comparison
          have hdir2 : fs.isDirAt (cfg.home ++ e.dest) = false := by
            rwa [Bool.not_eq_true] at hdir
          rcases hsafe hd hsym2 hdir2 hsrc with ⟨hf1, hf2⟩
          rcases isFileAt_readBytesE fs (cfg.dotfilesPath ++ e.source) hf1 with ⟨sb, hsbE, hsb⟩
          rcases isFileAt_readBytesE fs (cfg.home ++ e.dest) hf2 with ⟨db, hdbE, hdb⟩
          by_cases heq : sb = db
          · have hcond : fs.pathExists (cfg.home ++ e.dest) = false
                ∨ fs.isSymlink (cfg.home ++ e.dest) = true
                ∨ (fs.pathExists (cfg.dotfilesPath ++ e.source) = true
                   ∧ fs.isDirAt (cfg.home ++ e.dest) = false
                   ∧ fs.readBytes (cfg.dotfilesPath ++ e.source) =
                       fs.readBytes (cfg.home ++ e.dest)) := by
              refine Or.inr (Or.inr ⟨hsrc, hdir2, ?_⟩)
              rw [hsb, hdb, heq]
            have hrun : collectStep cfg dryRun ⟨c, s, acts, fs⟩ e =
                .ok ⟨c, s + 1, acts ++ [.skippedUnchanged], fs⟩ := by
              unfold collectStep
              dsimp only
              simp only [hd, hsym2, hsrc, hdir2, not_true, Bool.false_eq_true, if_false,
                if_true, hsbE, hdbE, except_bind_ok, pure_bind]
              simp only [heq, beq_self_eq_true, if_true]
              rfl
            rw [if_pos hcond, hrun]
            exact ⟨rfl, fun _ => rfl⟩
          · have hcond : ¬(fs.pathExists (cfg.home ++ e.dest) = false
                ∨ fs.isSymlink (cfg.home ++ e.dest) = true
                ∨ (fs.pathExists (cfg.dotfilesPath ++ e.source) = true
                   ∧ fs.isDirAt (cfg.home ++ e.dest) = false
                   ∧ fs.readBytes (cfg.dotfilesPath ++ e.source) =
                       fs.readBytes (cfg.home ++ e.dest))) := by
              rw [hd, hsym2, hsb, hdb]
              simp [heq]
            rw [if_neg hcond]
            refine ⟨?_, fun hc => absurd hc hcond⟩
            unfold collectStep
            dsimp only
            simp only [hd, hsym2, hsrc, hdir2, not_true, Bool.false_eq_true, if_false,
              if_true, hsbE, hdbE, except_bind_ok, pure_bind]
            have hne : (sb == db) = false := by
              rw [beq_eq_false_iff_ne]
              exact heq
            simp only [hne, Bool.false_eq_true, if_false]
            by_cases hdr : dryRun = true
            · rw [hdr]
              rfl
            · rw [Bool.not_eq_true] at hdr
              rw [hdr]
              cases hin : collectCopyBack fs (cfg.dotfilesPath ++ e.source) (cfg.home ++ e.dest) with
              | ok fs3 => rfl
              | error err => rfl
      · -- source absent: never skipped-unchanged, entry is collected
        have hsrc2 : fs.pathExists (cfg.dotfilesPath ++ e.source) = false := by
          rwa [Bool.not_eq_true] at hsrc
        have hcond : ¬(fs.pathExists (cfg.home ++ e.dest) = false
            ∨ fs.isSymlink (cfg.home ++ e.dest) = true
            ∨ (fs.pathExists (cfg.dotfilesPath ++ e.source) = true
               ∧ fs.isDirAt (cfg.home ++ e.dest) = false
               ∧ fs.readBytes (cfg.dotfilesPath ++ e.source) =
                   fs.readBytes (cfg.home ++ e.dest))) := by
          rw [hd, hsym2, hsrc2]
          simp
        rw [if_neg hcond]
        refine ⟨?_, fun hc => absurd hc hcond⟩
        unfold collectStep
        dsimp only
        simp only [hd, hsym2, hsrc2, not_true, Bool.false_eq_true, if_false, if_true,
          pure_bind]
        by_cases hdr : dryRun = true
        · rw [hdr]
          rfl
        · rw [Bool.not_eq_true] at hdr
          rw [hdr]
          cases hin : collectCopyBack fs (cfg.dotfilesPath ++ e.source) (cfg.home ++ e.dest) with
          | ok fs3 => rfl
          | error err => rfl
  · -- destination absent
    have hd2 : fs.pathExists (cfg.home ++ e.dest) = false := by
      rwa [Bool.not_eq_true] at hd
    have hrun : collectStep cfg dryRun ⟨c, s, acts, fs⟩ e =
        .ok ⟨c, s + 1, acts ++ [.skippedMissing], fs⟩ := by
      unfold collectStep
      dsimp only
      simp only [hd2, Bool.false_eq_true, not_false_iff, if_true]
      rfl
    have hcond : fs.pathExists (cfg.home ++ e.dest) = false
        ∨ fs.isSymlink (cfg.home ++ e.dest) = true
        ∨ (fs.pathExists (cfg.dotfilesPath ++ e.source) = true
           ∧ fs.isDirAt (cfg.home ++ e.dest) = false
           ∧ fs.readBytes (cfg.dotfilesPath ++ e.source) =
               fs.readBytes (cfg.home ++ e.dest)) := Or.inl hd2
    rw [if_pos hcond, hrun]
    exact ⟨rfl, fun _ => rfl⟩

/-- C7 witness: the amended theorem applied to a byte-identical
regular-file copy entry, whose skip leaves the filesystem unchanged. -/
theorem C7_witness :
    (collectStep exCfg false ⟨0, 0, [], fsCopySame⟩ eACopy).map CollectState.skipped = .ok 1
    ∧ (collectStep exCfg false ⟨0, 0, [], fsCopySame⟩ eACopy).map CollectState.fs =
        .ok fsCopySame := by
  have h := C7_collect_skip_iff exCfg false 0 0 [] fsCopySame eACopy
    (by intro h1 h2 h3 h4; exact ⟨by rfl, by rfl⟩)
  constructor
  · rw [h.1, if_pos (by decide)]
  · exact h.2 (by decide)

/-! ## Claim C9 -/

theorem applyStep_dry (cfg : Config) (force : Bool) (bd : Option PathC)
    (rep : SyncReport) (fs : FS) (e : FileEntry) :
    ∃ rep2 : SyncReport, applyStep cfg force true bd (rep, fs) e = .ok (rep2, fs)
      ∧ rep2.lines.length = rep.lines.length + 1 := by
  unfold applyStep
  dsimp only
  by_cases hs : fs.pathExists (cfg.dotfilesPath ++ e.source) = true
  · refine ⟨{ rep with lines := rep.lines ++
        ["[dry-run] " ++ e.type ++ " " ++ joinPath e.source ++ " -> " ++ ("~/" ++ joinPath e.dest)] },
      ?_, ?_⟩
    · simp only [hs, not_true, Bool.false_eq_true, if_false, eq_self_iff_true, if_true]
      rfl
    · simp
  · rw [Bool.not_eq_true] at hs
    refine ⟨{ rep with errCount := rep.errCount + 1, lines := rep.lines ++ ["~/" ++ joinPath e.dest ++ " - source not found"] },
      ?_, ?_⟩
    · simp only [hs, Bool.false_eq_true, not_false_iff, if_true]
      rfl
    · simp

theorem applyFold_dry (cfg : Config) (force : Bool) (bd : Option PathC)
    (l : List FileEntry) :
    ∀ rep fs, ∃ rep2 : SyncReport,
      l.foldlM (applyStep cfg force true bd) (rep, fs) = .ok (rep2, fs)
      ∧ rep2.lines.length = rep.lines.length + l.length := by
  induction l with
  | nil =>
    intro rep fs
    exact ⟨rep, rfl, by simp⟩
  | cons e tl ih =>
    intro rep fs
    rcases applyStep_dry cfg force bd rep fs e with ⟨rep1, h1, hl1⟩
    rcases ih rep1 fs with ⟨rep2, h2, hl2⟩
    refine ⟨rep2, ?_, ?_⟩
    · rw [show (e :: tl).foldlM (applyStep cfg force true bd) (rep, fs) =
          applyStep cfg force true bd (rep, fs) e >>= (fun st =>
            tl.foldlM (applyStep cfg force true bd) st) from rfl,
        h1, except_bind_ok, h2]
    · rw [hl2, hl1, List.length_cons]
      omega

theorem collectStep_dry (cfg : Config) (st : CollectState) (e : FileEntry)
    (out : CollectState) (h : collectStep cfg true st e = .ok out) :
    out.fs = st.fs ∧ out.actions.length = st.actions.length + 1 := by
  unfold collectStep at h
  dsimp only at h
  by_cases hd : st.fs.pathExists (cfg.home ++ e.dest) = true
  · simp only [hd, not_true, Bool.false_eq_true, if_false] at h
    by_cases hsym : st.fs.isSymlink (cfg.home ++ e.dest) = true
    · simp only [hsym, if_true] at h
      rw [except_pure_ok] at h
      injection h with h2
      subst h2
      simp
    · have hsym2 : st.fs.isSymlink (cfg.home ++ e.dest) = false := by
        rwa [Bool.not_eq_true] at hsym
      simp only [hsym2, Bool.false_eq_true, if_false] at h
      by_cases hsrc : st.fs.pathExists (cfg.dotfilesPath ++ e.source) = true
      · simp only [hsrc, if_true] at h
        by_cases hdir : st.fs.isDirAt (cfg.home ++ e.dest) = true
        · simp only [hdir, if_true, pure_bind, Bool.false_eq_true, if_false,
            eq_self_iff_true] at h
          rw [except_pure_ok] at h
          injection h with h2
          subst h2
          simp
        · have hdir2 : st.fs.isDirAt (cfg.home ++ e.dest) = false := by
            rwa [Bool.not_eq_true] at hdir
          simp only [hdir2, Bool.false_eq_true, if_false] at h
          cases hsb : st.fs.readBytesE (cfg.dotfilesPath ++ e.source) with
          | error err =>
            rw [hsb, except_bind_error] at h
            exact Except.noConfusion h
          | ok sb =>
            rw [hsb, except_bind_ok] at h
            cases hdb : st.fs.readBytesE (cfg.home ++ e.dest) with
            | error err =>
              rw [hdb, except_bind_error] at h
              exact Except.noConfusion h
            | ok db =>
              rw [hdb, except_bind_ok, pure_bind] at h
              by_cases heq : (sb == db) = true
              · simp only [heq, if_true] at h
                rw [except_pure_ok] at h
                injection h with h2
                subst h2
                simp
              · simp only [heq, Bool.false_eq_true, if_false, eq_self_iff_true,
                  if_true] at h
                rw [except_pure_ok] at h
                injection h with h2
                subst h2
                simp
      · have hsrc2 : st.fs.pathExists (cfg.dotfilesPath ++ e.source) = false := by
          rwa [Bool.not_eq_true] at hsrc
        simp only [hsrc2, Bool.false_eq_true, if_false, pure_bind, eq_self_iff_true,
          if_true] at h
        rw [except_pure_ok] at h
        injection h with h2
        subst h2
        simp
  · have hd2 : st.fs.pathExists (cfg.home ++ e.dest) = false := by
      rwa [Bool.not_eq_true] at hd
    simp only [hd2, Bool.false_eq_true, not_false_iff, if_true] at h
    rw [except_pure_ok] at h
    injection h with h2
    subst h2
    simp

theorem collectFold_dry (cfg : Config) (l : List FileEntry) :
    ∀ st out, l.foldlM (collectStep cfg true) st = .ok out →
      out.fs = st.fs ∧ out.actions.length = st.actions.length + l.length := by
  induction l with
  | nil =>
    intro st out h
    cases h
    simp
  | cons e tl ih =>
    intro st out h
    rw [show (e :: tl).foldlM (collectStep cfg true) st =
        collectStep cfg true st e >>= (fun st2 => tl.foldlM (collectStep cfg true) st2)
      from rfl] at h
    cases hstep : collectStep cfg true st e with
    | error err =>
      rw [hstep, except_bind_error] at h
      exact Except.noConfusion h
    | ok st1 =>
      rw [hstep, except_bind_ok] at h
      rcases ih st1 out h with ⟨h1, h2⟩
      rcases collectStep_dry cfg st e st1 hstep with ⟨g1, g2⟩
      refine ⟨by rw [h1, g1], ?_⟩
      rw [h2, g2, List.length_cons]
      omega

/-- C9: with `dryRun=true`, `apply` returns the filesystem untouched (no
node created, removed or modified, and no backup directory made), and
`collect` — whenever it completes — likewise returns the filesystem it
was given; both still emit exactly one report line / recorded action per
platform-matching entry. -/
theorem C9_dry_run_no_mutation (cfg : Config) (ts : String) (fs : FS)
    (entries : List FileEntry) (force : Bool) :
    (applyModel cfg ts fs entries force true).map Prod.snd = .ok fs
    ∧ (entries ≠ [] →
        (applyModel cfg ts fs entries force true).map (fun r => r.1.lines.length) =
          .ok (Manifest.for_platform entries cfg.platform).length)
    ∧ (∀ out, collectModel cfg fs entries true = .ok out → out.fs = fs)
    ∧ (∀ out, collectModel cfg fs entries true = .ok out → entries ≠ [] →
        out.actions.length = (Manifest.for_platform entries cfg.platform).length) := by
  by_cases hemp : entries.isEmpty = true
  · have hnil : entries = [] := by
      cases entries with
      | nil => rfl
      | cons a l => simp [List.isEmpty] at hemp
    subst hnil
    refine ⟨rfl, fun hne => absurd rfl hne, fun out h => ?_, fun out h hne => absurd rfl hne⟩
    cases h
    rfl
  · rcases applyFold_dry cfg force none (Manifest.for_platform entries cfg.platform)
      ⟨0, 0, 0, []⟩ fs with ⟨rep2, h2, hl2⟩
    have happ : applyModel cfg ts fs entries force true = .ok (rep2, fs) := by
      unfold applyModel
      dsimp only
      rw [show entries.isEmpty = false from by rwa [Bool.not_eq_true] at hemp]
      simp only [Bool.false_eq_true, if_false, Bool.not_true, Bool.and_false, pure_bind,
        except_bind_ok, eq_self_iff_true, if_true]
      rw [h2, except_bind_ok]
      rfl
    have hcoll : collectModel cfg fs entries true =
        (Manifest.for_platform entries cfg.platform).foldlM
          (collectStep cfg true) ⟨0, 0, [], fs⟩ := by
      unfold collectModel
      rw [show entries.isEmpty = false from by rwa [Bool.not_eq_true] at hemp]
      simp only [Bool.false_eq_true, if_false]
    refine ⟨?_, fun _ => ?_, fun out h => ?_, fun out h _ => ?_⟩
    · rw [happ]
      rfl
    · rw [happ]
      simp only [Except.map]
      rw [hl2]
      simp
    · rw [hcoll] at h
      exact (collectFold_dry cfg (Manifest.for_platform entries cfg.platform)
        ⟨0, 0, [], fs⟩ out h).1
    · rw [hcoll] at h
      have hlen := (collectFold_dry cfg (Manifest.for_platform entries cfg.platform)
        ⟨0, 0, [], fs⟩ out h).2
      simpa using hlen

/-- C9 witness: the theorem applied to a concrete one-entry manifest over
a home holding a conflicting file; the dry runs of both directions leave
the filesystem exactly as given and report once. -/
theorem C9_witness :
    (applyModel exCfg "tw" fsConf [eA] false true).map Prod.snd = .ok fsConf
    ∧ (applyModel exCfg "tw" fsConf [eA] false true).map (fun r => r.1.lines.length) = .ok 1
    ∧ (CollectState.mk 1 0 [CollectAction.wouldCollect] fsConf).fs = fsConf := by
  have h := C9_dry_run_no_mutation exCfg "tw" fsConf [eA] false
  refine ⟨h.1, ?_, ?_⟩
  · rw [h.2.1 (by simp)]
    rfl
  · exact h.2.2.1 ⟨1, 0, [CollectAction.wouldCollect], fsConf⟩ (by decide)

end Dotfiles
